import Mathlib

/-!
Shallow embedding of the Corfo form-scraper (scraper_formulario.py, scraper.py).

A Selenium element is modelled as a record of the results of the attribute
reads and of the DOM queries the code performs on it.  Lookups that the code
wraps in try/except are modelled as Option values (none = the query raised or
found nothing).  Python string operations are modelled charwise over the
UTF-8 character list of the Lean string.
-/

set_option linter.unusedVariables false

/-- Model of the Python expression `v or d` for an optional string `v`:
None and the empty string are falsy and give the default `d`. -/
def orDefault (v : Option String) (d : String) : String :=
  match v with
  | none => d
  | some s => if s = "" then d else s

/-- Python truthiness of an optional string: truthy iff present and non-empty. -/
def truthy (v : Option String) : Bool :=
  match v with
  | none => false
  | some s => s != ""

/-- Model of the Python expression `v or None`: collapses the empty string to None. -/
def truthyOpt (v : Option String) : Option String :=
  match v with
  | none => none
  | some s => if s = "" then none else some s

/-- Rendering of an optional string inside a Python f-string:
None renders as the four-letter text "None". -/
def pyStr (v : Option String) : String :=
  match v with
  | none => "None"
  | some s => s

/-- Charwise lowercasing, model of the Python str.lower() call on the
ASCII-relevant strings this program compares. -/
def pyLower (s : String) : String := String.mk (s.data.map Char.toLower)

/-- Remove leading and trailing whitespace from a character list. -/
def stripChars (l : List Char) : List Char :=
  ((l.dropWhile Char.isWhitespace).reverse.dropWhile Char.isWhitespace).reverse

/-- Model of the Python str.strip() call. -/
def pyStrip (s : String) : String := String.mk (stripChars s.data)

/-- `leadsWith l pat` is true iff the list `l` begins with the list `pat`. -/
def leadsWith : List Char → List Char → Bool
  | _, [] => true
  | [], _ :: _ => false
  | a :: as, b :: bs => a == b && leadsWith as bs

/-- `hasSub l pat` is true iff `pat` occurs contiguously inside `l`;
model of the Python `pat in l` substring test. -/
def hasSub : List Char → List Char → Bool
  | [], pat => leadsWith [] pat
  | a :: tl, pat => leadsWith (a :: tl) pat || hasSub tl pat

/-- Model of the Python `pat in s` substring test on strings. -/
def strContains (s pat : String) : Bool := hasSub s.data pat.data

/-- Model of the Python s.startswith(pat) test. -/
def pyStartsWith (s pat : String) : Bool := leadsWith s.data pat.data

/-- One option element of a select control: its value attribute and its text. -/
structure OptionEntry where
  value : Option String
  text : String
deriving DecidableEq, Repr

/-- A form control as the scraper observes it: raw attribute reads, the
visibility probe (none = is_displayed raised), and the outcome of each of the
five label XPath lookups of _get_label_for_control (none = the lookup raised
NoSuchElementException, some t = the found caption has text t). -/
structure Control where
  tag : Option String := some "input"
  typeAttr : Option String := none
  idAttr : Option String := none
  nameAttr : Option String := none
  valueAttr : Option String := none
  placeholderAttr : Option String := none
  maxlengthAttr : Option String := none
  classAttr : Option String := none
  requiredAttr : Option String := none
  ariaRequired : Option String := none
  displayed : Option Bool := some true
  labelFormGroup : Option String := none
  labelParentTag : Option String := none
  labelForId : Option String := none
  labelPreceding : Option String := none
  labelInside : Option String := none
  optionEls : List OptionEntry := []
deriving DecidableEq, Repr

/-- One caption lookup step of the resolver: the looked-up caption text,
stripped, accepted only when non-empty (source lines 20-67). -/
def labelStep (found : Option String) : Option String :=
  match found with
  | none => none
  | some t => if pyStrip t = "" then none else some (pyStrip t)

/-- The accented letters accepted by the name regex of the resolver. -/
def spanishLetters : List Char := "ÁÉÍÓÚáéíóúÑñ".data

/-- One character of the regex class of source line 74. -/
def isLabelLetter (c : Char) : Bool :=
  ('A' ≤ c && c ≤ 'Z') || ('a' ≤ c && c ≤ 'z') || spanishLetters.contains c

/-- Model of re.search on the letter class of source line 74. -/
def nameHasLetter (s : String) : Bool := s.data.any isLabelLetter

/-- Heuristic 3 of the resolver: the for-referenced caption is looked up only
when the control has a truthy id (source lines 41-49). -/
def labelForIdStep (c : Control) : Option String :=
  if truthy c.idAttr then labelStep c.labelForId else none

/-- Model of _get_label_for_control (source lines 13-77): five caption
lookups in order, then the placeholder, then the name when it has a letter,
else none. -/
def _get_label_for_control (c : Control) : Option String :=
  match labelStep c.labelFormGroup with
  | some t => some t
  | none =>
    match labelStep c.labelParentTag with
    | some t => some t
    | none =>
      match labelForIdStep c with
      | some t => some t
      | none =>
        match labelStep c.labelPreceding with
        | some t => some t
        | none =>
          match labelStep c.labelInside with
          | some t => some t
          | none =>
            let placeholder := pyStrip (orDefault c.placeholderAttr "")
            if placeholder != "" then some placeholder
            else
              let nm := pyStrip (orDefault c.nameAttr "")
              if nm != "" && nameHasLetter nm then some nm
              else none

/-- The value of the k-th heuristic of the label resolver, k = 1..7, exactly
as the spec orders them; each entry is the piece of _get_label_for_control
that computes it. -/
def heuristicValue (c : Control) : Nat → Option String
  | 1 => labelStep c.labelFormGroup
  | 2 => labelStep c.labelParentTag
  | 3 => labelForIdStep c
  | 4 => labelStep c.labelPreceding
  | 5 => labelStep c.labelInside
  | 6 =>
    let placeholder := pyStrip (orDefault c.placeholderAttr "")
    if placeholder != "" then some placeholder else none
  | 7 =>
    let nm := pyStrip (orDefault c.nameAttr "")
    if nm != "" && nameHasLetter nm then some nm else none
  | _ => none

/-- Model of _control_type (source lines 80-89). -/
def _control_type (c : Control) : String :=
  let tag := pyLower (orDefault c.tag "")
  if tag = "textarea" then "textarea"
  else if tag = "select" then "select"
  else if tag = "input" then pyLower (orDefault c.typeAttr "text")
  else tag

/-- Model of _is_required (source lines 92-96). -/
def _is_required (c : Control) : Bool :=
  let classes := pyLower (orDefault c.classAttr "")
  truthy c.requiredAttr || truthy c.ariaRequired || strContains classes "required"

/-- Model of _should_skip_control (source lines 99-100). -/
def _should_skip_control (t : String) : Bool :=
  ["hidden", "button", "submit", "reset"].contains t

/-- Spec-side notion for claim C5: the class list split into whitespace
separated tokens, lowercased. Modelled from the spec words: `a "required"
token in the class list`. -/
def classTokens (c : Control) : List (List Char) :=
  (((orDefault c.classAttr "").data.map Char.toLower).splitOnP
      Char.isWhitespace).filter (fun w => w ≠ [])

/-- Spec-side third required signal for claim C5: a token of the class list
equal to "required". -/
def requiredTokenPresent (c : Control) : Bool :=
  classTokens c |>.contains "required".data

/-- The resolved collapse region of a toggle: visibility before any click
(none = is_displayed raised) and visibility observed by the explicit wait
after the click. -/
structure CollapseTarget where
  displayedBefore : Option Bool := none
  visibleAfterClick : Bool := false
deriving DecidableEq, Repr

/-- A collapsible-section toggle as _ensure_expanded observes it. -/
structure Toggle where
  idAttr : Option String := none
  textContent : Option String := none
  ariaExpanded : Option String := none
  displayed : Option Bool := some true
  collapseTarget : Option CollapseTarget := none
  ariaExpandedAfterClick : Option String := none
deriving DecidableEq, Repr

/-- Result of _ensure_expanded: the returned boolean, plus whether any click
activation was attempted on the toggle. -/
structure ExpandOutcome where
  visible : Bool
  activated : Bool
deriving DecidableEq, Repr

/-- Model of _ensure_expanded (source lines 296-349).  The click cascade
(click, ActionChains, JS click) swallows every failure, so a single
`activated` flag records that an activation was attempted at all. -/
def _ensure_expanded (t : Toggle) : ExpandOutcome :=
  let t_id := pyLower (orDefault t.idAttr "")
  let t_text := pyLower (pyStrip (orDefault t.textContent ""))
  if pyStartsWith t_id "btnagregar" || strContains t_text "agregar" then
    { visible := false, activated := false }
  else
    let ariaOpen :=
      match t.ariaExpanded with
      | some a => pyLower a = "true" || pyLower a = "1"
      | none => false
    if ariaOpen then { visible := true, activated := false }
    else
      match t.collapseTarget with
      | some tgt =>
        if tgt.displayedBefore = some true then { visible := true, activated := false }
        else { visible := tgt.visibleAfterClick, activated := true }
      | none =>
        let ariaAfter :=
          truthy t.ariaExpandedAfterClick
            && (pyLower (orDefault t.ariaExpandedAfterClick "") = "true"
                || pyLower (orDefault t.ariaExpandedAfterClick "") = "1")
        { visible := ariaAfter, activated := true }

/-- One choice of a radio/checkbox group as assembled at source lines 232-239. -/
structure Choice where
  idVal : Option String
  value : Option String
  label : Option String
deriving DecidableEq, Repr

/-- One emitted field dictionary.  An Option-of-Option field models a dict key
that is present only for some kinds (none = key absent). -/
structure FormField where
  nombre : Option String
  tipo : String
  obligatorio : Bool
  id : Option String
  name : Option String
  options : Option (List OptionEntry)
  placeholder : Option (Option String)
  maxlength : Option (Option String)
  choices : Option (List Choice)
deriving DecidableEq, Repr

/-- A panel body: its visibility probe, its toggles and its input/textarea/
select descendants in DOM order, as found after the expansion pass. -/
structure Panel where
  displayed : Option Bool := some true
  toggles : List Toggle := []
  controls : List Control := []
deriving DecidableEq, Repr

/-- The kinds that carry placeholder/maxlength metadata (source line 223). -/
def textLikeKinds : List String := ["text", "textarea", "number", "file", "email", "tel"]

/-- The choice lookup XPath of source lines 228-231: an input descendant of
the panel whose type attribute equals the classified kind and whose name or
id attribute equals the f-string rendering of the first member attributes. -/
def choiceMatch (t nm cid : String) (o : Control) : Bool :=
  pyLower (orDefault o.tag "") == "input" && o.typeAttr == some t
    && (o.nameAttr == some nm || o.idAttr == some cid)

/-- Assembly of one choice entry (source lines 233-239). -/
def mkChoice (o : Control) : Choice :=
  { idVal := truthyOpt o.idAttr
  , value := truthyOpt o.valueAttr
  , label := truthyOpt (_get_label_for_control o) }

/-- The choice list gathered for a radio/checkbox control by re-querying the
enclosing panel (source lines 227-239). -/
def choicesFor (p : Panel) (t : String) (c : Control) : List Choice :=
  (p.controls.filter (choiceMatch t (pyStr c.nameAttr) (pyStr c.idAttr))).map mkChoice

/-- Assembly of one field dictionary for a control of classified kind t
(source lines 199-241). -/
def buildField (p : Panel) (t : String) (c : Control) : FormField :=
  { nombre := truthyOpt (_get_label_for_control c)
  , tipo := t
  , obligatorio := _is_required c
  , id := truthyOpt c.idAttr
  , name := truthyOpt c.nameAttr
  , options := if t = "select" then some c.optionEls else none
  , placeholder := if textLikeKinds.contains t then some (truthyOpt c.placeholderAttr) else none
  , maxlength := if textLikeKinds.contains t then some (truthyOpt c.maxlengthAttr) else none
  , choices :=
      if t = "radio" || t = "checkbox" then
        (let cs := choicesFor p t c
         if cs = [] then none else some cs)
      else none }

/-- The deduplication tuple of source line 244: field.get of id, name,
nombre, tipo, where a missing key reads as None. -/
def fieldKey (f : FormField) : Option String × Option String × Option String × String :=
  (f.id, f.name, f.nombre, f.tipo)

/-- The radio group key expression of source lines 191-194:
name or id or the empty string. -/
def radioGroupKey (c : Control) : String :=
  orDefault c.nameAttr (orDefault c.idAttr "")

/-- The mutable state of the extraction loop: the emitted fields, the
grouped_radios set and the seen_fields set (source lines 136-138). -/
structure ExtractState where
  fields : List FormField
  groupedRadios : List (Nat × String)
  seenFields : List (Option String × Option String × Option String × String)
deriving DecidableEq, Repr

/-- The state at entry of the panel loop. -/
def initState : ExtractState := { fields := [], groupedRadios := [], seenFields := [] }

/-- The tail of the control body (source lines 243-249): drop the field when
its tuple was already seen, else record the tuple and append the field. -/
def emitField (p : Panel) (t : String) (c : Control) (st : ExtractState) : ExtractState :=
  let f := buildField p t c
  let k := fieldKey f
  if k ∈ st.seenFields then st
  else { st with seenFields := k :: st.seenFields, fields := st.fields ++ [f] }

/-- The body of the per-control loop (source lines 179-249): skip invisible
controls, skip excluded kinds, deduplicate radio groups by
(panel index, group key), then assemble and emit the field. -/
def processControl (pi : Nat) (p : Panel) (st : ExtractState) (c : Control) : ExtractState :=
  if c.displayed ≠ some true then st
  else
    let t := _control_type c
    if _should_skip_control t then st
    else if t = "radio" then
      (let key := (pi, radioGroupKey c)
       if key ∈ st.groupedRadios then st
       else emitField p t c { st with groupedRadios := key :: st.groupedRadios })
    else emitField p t c st

/-- The body of the per-panel loop (source lines 140-249): skip a panel whose
visibility probe fails or raises, run the best-effort toggle expansion pass
(outcomes discarded, failures swallowed), then fold over the controls. -/
def processPanel (st : ExtractState) (pi : Nat) (p : Panel) : ExtractState :=
  if p.displayed ≠ some true then st
  else
    let _expandResults := p.toggles.map _ensure_expanded
    p.controls.foldl (processControl pi p) st

/-- The full extraction fold over the enumerated panels. -/
def extractFields (panels : List Panel) : List FormField :=
  (panels.enum.foldl (fun st pp => processPanel st pp.1 pp.2) initState).fields

/-- The message of the RuntimeError raised at source lines 128-131. -/
def panelsMissingError : String := "No se encontro ningun contenedor antes del timeout."

/-- Model of extract_form_to_json: the panel wait either times out (none) and
raises, or yields the located panels and the extraction runs to completion
(source lines 123-258). -/
def extract_form_to_json (panels : Option (List Panel)) : Except String (List FormField) :=
  match panels with
  | none => Except.error panelsMissingError
  | some ps => Except.ok (extractFields ps)

/-- A member of the radio group named n of a panel, as the re-query of the
classifier finds them: an input of type attribute radio carrying that name. -/
def memberPred (n : String) (o : Control) : Bool :=
  pyLower (orDefault o.tag "") == "input" && o.typeAttr == some "radio"
    && o.nameAttr == some n

/-- The members of the radio group named n inside a panel. -/
def groupMembers (p : Panel) (n : String) : List Control :=
  p.controls.filter (memberPred n)

/-- A field emitted for the radio group named n: kind radio and that name. -/
def isGroupField (n : String) (f : FormField) : Bool :=
  f.tipo == "radio" && f.name == some n

/-- A visible radio control with neither a name attribute nor an id attribute
(claim C10). -/
def keylessVisibleRadio (c : Control) : Prop :=
  c.nameAttr = none ∧ c.idAttr = none ∧ c.displayed = some true ∧ _control_type c = "radio"

/-- The page state observed by the routing step of login_corfo (source lines
143-241): which of the two acceptance conditions the racing wait observes,
and whether the new-application branch raises an uncaught exception on its
unguarded find_element call (source line 160). -/
structure PostLoginPage where
  nuevaPresent : Bool := false
  barraPresent : Bool := false
  nuevaBranchRaises : Bool := false
deriving DecidableEq, Repr

/-- Model of the ROUTE_TO_FORM_ENTRY step of login_corfo (source lines
143-241).  A timeout of the racing wait is caught at line 238 and the driver
is returned; the progress-bar branch swallows every failure in its inner
broad except (line 235); only the unguarded find_element of the
new-application branch can propagate an error. -/
def route_to_form_entry {α : Type} (driver : α) (page : PostLoginPage) : Except String α :=
  if page.nuevaPresent then
    (if page.nuevaBranchRaises then Except.error "NoSuchElementException"
     else Except.ok driver)
  else if page.barraPresent then Except.ok driver
  else Except.ok driver

/-- Counterexample DOM for claim C1, first panel: one visible unlabeled
radio of a group named "plan", without an id. -/
def cr1 : Control := { typeAttr := some "radio", nameAttr := some "plan", valueAttr := some "a" }

/-- Counterexample DOM for claim C1, second panel: one visible unlabeled
radio of another group that carries the same name "plan". -/
def cr2 : Control := { typeAttr := some "radio", nameAttr := some "plan", valueAttr := some "b" }

/-- First panel of the C1 counterexample DOM. -/
def cPanel0 : Panel := { controls := [cr1] }

/-- Second panel of the C1 counterexample DOM. -/
def cPanel1 : Panel := { controls := [cr2] }

/-- Witness DOM for the amended claim C1: first member of the group "grp". -/
def wg1 : Control :=
  { typeAttr := some "radio", nameAttr := some "grp", idAttr := some "g1",
    labelFormGroup := some "Plan" }

/-- Witness DOM for the amended claim C1: second member of the group "grp". -/
def wg2 : Control := { typeAttr := some "radio", nameAttr := some "grp", idAttr := some "g2" }

/-- Witness panel for the amended claim C1. -/
def wgPanel : Panel := { controls := [wg1, wg2] }

/-- Witness control for claim C3: only heuristic 2 applies, with caption
text that needs stripping. -/
def w3ctrl : Control := { labelParentTag := some " Acepto los terminos " }

/-- The control of claim C4: a numeric-only name, no caption, no placeholder. -/
def numericNameCtrl : Control := { nameAttr := some "10917038_0" }

/-- The same control of claim C4 with a letter-bearing name. -/
def rutNameCtrl : Control := { numericNameCtrl with nameAttr := some "rut_field" }

/-- A control offering no label source at all, witness input for claim C4. -/
def blankCtrl : Control := {}

/-- Counterexample control for claim C5: its class list holds the single
token "field-required", which is not a "required" token, yet the substring
test of the code fires on it. -/
def classCtrl : Control := { classAttr := some "field-required" }

/-- Witness control for claim C6: a hidden input. -/
def hiddenCtrl : Control := { typeAttr := some "hidden", nameAttr := some "h" }

/-- A visible text control, part of the witness panel for claim C6. -/
def wTextCtrl : Control := { typeAttr := some "text", nameAttr := some "rut_field" }

/-- Witness panel for claim C6. -/
def wC6Panel : Panel := { controls := [hiddenCtrl, wTextCtrl] }

/-- Witness toggle for claim C8: an add-new affordance by caption. -/
def wToggle : Toggle := { textContent := some "Agregar Nuevo +" }

/-- Witness page for claim C9: neither routing condition appears. -/
def quietPage : PostLoginPage := {}

/-- Witness DOM for claim C10: first keyless visible radio. -/
def k1 : Control := { typeAttr := some "radio", valueAttr := some "si" }

/-- Witness DOM for claim C10: a later keyless visible radio of an unrelated
group. -/
def k2 : Control := { typeAttr := some "radio", valueAttr := some "no" }

/-- Witness panel for claim C10. -/
def kPanel : Panel := { controls := [k1, k2] }

/-! ## Helper lemmas on the string model -/

theorem leadsWith_iff {l pat : List Char} :
    leadsWith l pat = true ↔ ∃ r, l = pat ++ r := by
  induction pat generalizing l with
  | nil => simp [leadsWith]
  | cons b bs ih =>
    cases l with
    | nil => simp [leadsWith]
    | cons a as =>
      simp only [leadsWith, Bool.and_eq_true, beq_iff_eq, ih, List.cons_append,
        List.cons.injEq]
      constructor
      · rintro ⟨rfl, r, rfl⟩; exact ⟨r, rfl, rfl⟩
      · rintro ⟨r, rfl, rfl⟩; exact ⟨rfl, r, rfl⟩

theorem hasSub_iff {l pat : List Char} :
    hasSub l pat = true ↔ ∃ l1 l2, l = l1 ++ pat ++ l2 := by
  induction l with
  | nil =>
    simp only [hasSub, leadsWith_iff]
    constructor
    · rintro ⟨r, h⟩
      exact ⟨[], r, by simpa using h⟩
    · rintro ⟨l1, l2, h⟩
      refine ⟨l2, ?_⟩
      rcases List.append_eq_nil.mp h.symm with ⟨h1, h2⟩
      rcases List.append_eq_nil.mp h1 with ⟨rfl, rfl⟩
      simp [h2]
  | cons a tl ih =>
    simp only [hasSub, Bool.or_eq_true, leadsWith_iff, ih]
    constructor
    · rintro (⟨r, h⟩ | ⟨l1, l2, h⟩)
      · exact ⟨[], r, by simpa using h⟩
      · exact ⟨a :: l1, l2, by simp [h]⟩
    · rintro ⟨l1, l2, h⟩
      cases l1 with
      | nil => exact Or.inl ⟨l2, by simpa using h⟩
      | cons x l1' =>
        right
        simp only [List.cons_append, List.cons.injEq] at h
        exact ⟨l1', l2, h.2⟩

theorem hasSub_nil_pat (l : List Char) : hasSub l [] = true := by
  cases l <;> simp [hasSub, leadsWith]

theorem hasSub_map {l pat : List Char} (f : Char → Char) (h : hasSub l pat = true) :
    hasSub (l.map f) (pat.map f) = true := by
  rcases hasSub_iff.mp h with ⟨l1, l2, rfl⟩
  exact hasSub_iff.mpr ⟨l1.map f, l2.map f, by simp⟩

theorem hasSub_reverse {l pat : List Char} (h : hasSub l pat = true) :
    hasSub l.reverse pat.reverse = true := by
  rcases hasSub_iff.mp h with ⟨l1, l2, rfl⟩
  exact hasSub_iff.mpr ⟨l2.reverse, l1.reverse, by simp⟩

theorem dropWhile_append_sub (l1 l2 : List Char) (q : Char → Bool) :
    (l1 ++ l2).dropWhile q = l2.dropWhile q
      ∨ ∃ r, (l1 ++ l2).dropWhile q = r ++ l2 := by
  induction l1 with
  | nil => simp
  | cons a tl ih =>
    by_cases hq : q a = true
    · simpa [List.dropWhile_cons, hq] using ih
    · exact Or.inr ⟨a :: tl, by simp [List.dropWhile_cons, hq]⟩

theorem hasSub_dropWhile {l pat : List Char} (q : Char → Bool)
    (hpat : ∀ ch ∈ pat, q ch = false) (h : hasSub l pat = true) :
    hasSub (l.dropWhile q) pat = true := by
  rcases hasSub_iff.mp h with ⟨l1, l2, rfl⟩
  cases pat with
  | nil => exact hasSub_nil_pat _
  | cons b bs =>
    have hb : q b = false := hpat b (by simp)
    have hmid : ((b :: bs) ++ l2).dropWhile q = (b :: bs) ++ l2 := by
      simp [List.dropWhile_cons, hb]
    rw [List.append_assoc]
    rcases dropWhile_append_sub l1 ((b :: bs) ++ l2) q with hcase | ⟨r, hcase⟩
    · rw [hcase, hmid]
      exact hasSub_iff.mpr ⟨[], l2, by simp⟩
    · rw [hcase]
      exact hasSub_iff.mpr ⟨r, l2, by simp⟩

theorem hasSub_stripChars {l pat : List Char}
    (hpat : ∀ ch ∈ pat, ch.isWhitespace = false) (h : hasSub l pat = true) :
    hasSub (stripChars l) pat = true := by
  unfold stripChars
  have h1 := hasSub_dropWhile Char.isWhitespace hpat h
  have h2 := hasSub_reverse h1
  have h3 := hasSub_dropWhile Char.isWhitespace
    (by intro ch hch; exact hpat ch (List.mem_reverse.mp hch)) h2
  have h4 := hasSub_reverse h3
  simpa using h4

/-! ## Helper lemmas on the Python value model -/

theorem orDefault_none (d : String) : orDefault none d = d := rfl

theorem orDefault_some_ne {s : String} (d : String) (h : s ≠ "") :
    orDefault (some s) d = s := by simp [orDefault, h]

theorem truthyOpt_eq_some {v : Option String} {s : String} :
    truthyOpt v = some s ↔ v = some s ∧ s ≠ "" := by
  constructor
  · intro h
    cases v with
    | none => exact Option.noConfusion h
    | some a =>
      simp only [truthyOpt] at h
      by_cases ha : a = ""
      · rw [if_pos ha] at h; exact Option.noConfusion h
      · rw [if_neg ha] at h
        have hs := Option.some.inj h
        subst hs
        exact ⟨rfl, ha⟩
  · rintro ⟨rfl, hs⟩
    simp [truthyOpt, hs]

theorem truthyOpt_some_of_ne {s : String} (h : s ≠ "") :
    truthyOpt (some s) = some s := by simp [truthyOpt, h]

/-! ## Characterization of one step of the extraction loop -/

theorem emitField_grouped (p : Panel) (t : String) (c : Control) (st : ExtractState) :
    (emitField p t c st).groupedRadios = st.groupedRadios := by
  by_cases h : fieldKey (buildField p t c) ∈ st.seenFields <;> simp [emitField, h]

theorem emitField_spec (p : Panel) (t : String) (c : Control) (st : ExtractState) :
    (fieldKey (buildField p t c) ∈ st.seenFields ∧ emitField p t c st = st)
  ∨ (fieldKey (buildField p t c) ∉ st.seenFields
     ∧ emitField p t c st
       = { st with seenFields := fieldKey (buildField p t c) :: st.seenFields,
                   fields := st.fields ++ [buildField p t c] }) := by
  by_cases h : fieldKey (buildField p t c) ∈ st.seenFields
  · exact Or.inl ⟨h, by simp [emitField, h]⟩
  · exact Or.inr ⟨h, by simp [emitField, h]⟩

theorem processControl_skip_or_emit (pi : Nat) (p : Panel) (st : ExtractState) (c : Control) :
    ((processControl pi p st c).fields = st.fields
      ∧ (processControl pi p st c).seenFields = st.seenFields)
  ∨ (c.displayed = some true
     ∧ _should_skip_control (_control_type c) = false
     ∧ (_control_type c = "radio" → (pi, radioGroupKey c) ∉ st.groupedRadios)
     ∧ fieldKey (buildField p (_control_type c) c) ∉ st.seenFields
     ∧ (processControl pi p st c).fields
         = st.fields ++ [buildField p (_control_type c) c]
     ∧ (processControl pi p st c).seenFields
         = fieldKey (buildField p (_control_type c) c) :: st.seenFields) := by
  by_cases hd : c.displayed = some true
  · by_cases hs : _should_skip_control (_control_type c) = true
    · exact Or.inl (by constructor <;> simp [processControl, hd, hs])
    · have hs' : _should_skip_control (_control_type c) = false := by
        simpa using hs
      by_cases hr : _control_type c = "radio"
      · by_cases hg : (pi, radioGroupKey c) ∈ st.groupedRadios
        · exact Or.inl (by constructor <;> simp [processControl, hd, hs', hr, hg])
        · have hsr : _should_skip_control "radio" = false := by decide
          have heq : processControl pi p st c
              = emitField p (_control_type c) c
                  { st with groupedRadios := (pi, radioGroupKey c) :: st.groupedRadios } := by
            simp [processControl, hd, hs', hr, hg, hsr]
          rcases emitField_spec p (_control_type c) c
              { st with groupedRadios := (pi, radioGroupKey c) :: st.groupedRadios } with
            ⟨hin, hem⟩ | ⟨hnin, hem⟩
          · refine Or.inl ?_
            rw [heq, hem]
            exact ⟨rfl, rfl⟩
          · refine Or.inr ⟨hd, hs', fun _ => hg, hnin, ?_, ?_⟩ <;> rw [heq, hem]
      · have heq : processControl pi p st c = emitField p (_control_type c) c st := by
          simp [processControl, hd, hs', hr]
        rcases emitField_spec p (_control_type c) c st with ⟨hin, hem⟩ | ⟨hnin, hem⟩
        · refine Or.inl ?_
          rw [heq, hem]
          exact ⟨rfl, rfl⟩
        · refine Or.inr ⟨hd, hs', fun hcr => absurd hcr hr, hnin, ?_, ?_⟩ <;> rw [heq, hem]
  · exact Or.inl (by constructor <;> simp [processControl, hd])

theorem processControl_grouped_spec (pi : Nat) (p : Panel) (st : ExtractState) (c : Control) :
    (processControl pi p st c).groupedRadios = st.groupedRadios
  ∨ ((processControl pi p st c).groupedRadios
       = (pi, radioGroupKey c) :: st.groupedRadios
     ∧ c.displayed = some true ∧ _control_type c = "radio"
     ∧ (pi, radioGroupKey c) ∉ st.groupedRadios) := by
  by_cases hd : c.displayed = some true
  · by_cases hs : _should_skip_control (_control_type c) = true
    · exact Or.inl (by simp [processControl, hd, hs])
    · have hs' : _should_skip_control (_control_type c) = false := by simpa using hs
      by_cases hr : _control_type c = "radio"
      · by_cases hg : (pi, radioGroupKey c) ∈ st.groupedRadios
        · exact Or.inl (by simp [processControl, hd, hs', hr, hg])
        · refine Or.inr ⟨?_, hd, hr, hg⟩
          have hsr : _should_skip_control "radio" = false := by decide
          have heq : processControl pi p st c
              = emitField p (_control_type c) c
                  { st with groupedRadios := (pi, radioGroupKey c) :: st.groupedRadios } := by
            simp [processControl, hd, hs', hr, hg, hsr]
          rw [heq, emitField_grouped]
      · have heq : processControl pi p st c = emitField p (_control_type c) c st := by
          simp [processControl, hd, hs', hr]
        exact Or.inl (by rw [heq, emitField_grouped])
  · exact Or.inl (by simp [processControl, hd])

theorem processControl_grouped_mono (pi : Nat) (p : Panel) (st : ExtractState) (c : Control)
    {k : Nat × String} (h : k ∈ st.groupedRadios) :
    k ∈ (processControl pi p st c).groupedRadios := by
  rcases processControl_grouped_spec pi p st c with heq | ⟨heq, _⟩ <;> rw [heq]
  · exact h
  · exact List.mem_cons_of_mem _ h

theorem processControl_seen_mono (pi : Nat) (p : Panel) (st : ExtractState) (c : Control)
    {k : Option String × Option String × Option String × String}
    (h : k ∈ st.seenFields) : k ∈ (processControl pi p st c).seenFields := by
  rcases processControl_skip_or_emit pi p st c with ⟨_, hseen⟩ | ⟨_, _, _, _, _, hseen⟩ <;>
    rw [hseen]
  · exact h
  · exact List.mem_cons_of_mem _ h

theorem processControl_radio_in_group (pi : Nat) (p : Panel) (st : ExtractState) (c : Control)
    (hd : c.displayed = some true) (hr : _control_type c = "radio")
    (hg : (pi, radioGroupKey c) ∈ st.groupedRadios) :
    processControl pi p st c = st := by
  have hs : _should_skip_control (_control_type c) = false := by rw [hr]; rfl
  simp [processControl, hd, hs, hr, hg]

theorem processControl_radio_adds_key (pi : Nat) (p : Panel) (st : ExtractState) (c : Control)
    (hd : c.displayed = some true) (hr : _control_type c = "radio") :
    (pi, radioGroupKey c) ∈ (processControl pi p st c).groupedRadios := by
  have hs : _should_skip_control (_control_type c) = false := by rw [hr]; rfl
  by_cases hg : (pi, radioGroupKey c) ∈ st.groupedRadios
  · simp [processControl, hd, hs, hr, hg]
  · have hsr : _should_skip_control "radio" = false := by decide
    have heq : processControl pi p st c
        = emitField p (_control_type c) c
            { st with groupedRadios := (pi, radioGroupKey c) :: st.groupedRadios } := by
      simp [processControl, hd, hs, hr, hg, hsr]
    rw [heq, emitField_grouped]
    exact List.mem_cons_self _ _

/-! ## Fold preservation machinery -/

theorem foldl_controls_preserve (pi : Nat) (p : Panel) {P : ExtractState → Prop}
    (l : List Control)
    (hstep : ∀ st c, c ∈ l → P st → P (processControl pi p st c)) :
    ∀ st, P st → P (l.foldl (processControl pi p) st) := by
  induction l with
  | nil => intro st h; simpa using h
  | cons a tl ih =>
    intro st h
    simp only [List.foldl_cons]
    exact ih (fun st' c hc hP => hstep st' c (List.mem_cons_of_mem _ hc) hP) _
      (hstep st a (List.mem_cons_self _ _) h)

theorem foldl_controls_grouped_mono (pi : Nat) (p : Panel) (l : List Control)
    {st : ExtractState} {k : Nat × String} (h : k ∈ st.groupedRadios) :
    k ∈ (l.foldl (processControl pi p) st).groupedRadios :=
  foldl_controls_preserve pi p l
    (fun st' c _ hP => processControl_grouped_mono pi p st' c hP) st h

theorem processPanel_displayed {st : ExtractState} {pi : Nat} {p : Panel}
    (h : p.displayed = some true) :
    processPanel st pi p = p.controls.foldl (processControl pi p) st := by
  simp [processPanel, h]

theorem processPanel_not_displayed {st : ExtractState} {pi : Nat} {p : Panel}
    (h : ¬ p.displayed = some true) : processPanel st pi p = st := by
  simp [processPanel, h]

theorem processPanel_preserve {P : ExtractState → Prop}
    (hstep : ∀ pi p st c, P st → P (processControl pi p st c)) :
    ∀ st pi p, P st → P (processPanel st pi p) := by
  intro st pi p h
  by_cases hd : p.displayed = some true
  · rw [processPanel_displayed hd]
    exact foldl_controls_preserve pi p _ (fun st' c _ hP => hstep pi p st' c hP) st h
  · rw [processPanel_not_displayed hd]
    exact h

theorem foldl_panels_preserve {P : ExtractState → Prop}
    (hstep : ∀ pi p st c, P st → P (processControl pi p st c)) :
    ∀ (l : List (Nat × Panel)) (st : ExtractState), P st →
      P (l.foldl (fun s pp => processPanel s pp.1 pp.2) st) := by
  intro l
  induction l with
  | nil => intro st h; simpa using h
  | cons a tl ih =>
    intro st h
    simp only [List.foldl_cons]
    exact ih _ (processPanel_preserve hstep _ _ _ h)

theorem extractFields_eq (panels : List Panel) :
    extractFields panels
      = (panels.enum.foldl (fun s pp => processPanel s pp.1 pp.2) initState).fields := rfl

/-! ## Radio group helper lemmas -/

theorem memberPred_iff {n : String} {o : Control} :
    memberPred n o = true ↔
      pyLower (orDefault o.tag "") = "input" ∧ o.typeAttr = some "radio"
        ∧ o.nameAttr = some n := by
  simp [memberPred, Bool.and_eq_true, beq_iff_eq, and_assoc]

theorem choiceMatch_iff {t nm cid : String} {o : Control} :
    choiceMatch t nm cid o = true ↔
      pyLower (orDefault o.tag "") = "input" ∧ o.typeAttr = some t
        ∧ (o.nameAttr = some nm ∨ o.idAttr = some cid) := by
  simp [choiceMatch, Bool.and_eq_true, Bool.or_eq_true, beq_iff_eq, and_assoc]

theorem member_control_type {n : String} {o : Control} (h : memberPred n o = true) :
    _control_type o = "radio" := by
  rcases memberPred_iff.mp h with ⟨htag, hty, _⟩
  have hlow : pyLower "radio" = "radio" := by decide
  have hor : orDefault (some "radio") "text" = "radio" := by decide
  simp [_control_type, htag, hty, hor, hlow]

theorem member_groupKey {n : String} {o : Control} (hn : n ≠ "")
    (h : memberPred n o = true) : radioGroupKey o = n := by
  rcases memberPred_iff.mp h with ⟨_, _, hname⟩
  simp [radioGroupKey, hname, orDefault, hn]

theorem radio_with_name_is_member {n : String} {o : Control}
    (hwf : pyLower (orDefault o.tag "") = "input"
      ∨ pyLower (orDefault o.tag "") = "textarea"
      ∨ pyLower (orDefault o.tag "") = "select")
    (htype : pyLower (orDefault o.typeAttr "text") = "radio" → o.typeAttr = some "radio")
    (hct : _control_type o = "radio")
    (hname : o.nameAttr = some n) :
    memberPred n o = true := by
  rcases hwf with htag | htag | htag
  · have hty : pyLower (orDefault o.typeAttr "text") = "radio" := by
      simpa [_control_type, htag] using hct
    exact memberPred_iff.mpr ⟨htag, htype hty, hname⟩
  · simp [_control_type, htag] at hct
  · simp [_control_type, htag] at hct

theorem isGroupField_buildField (n : String) (p : Panel) (t : String) (c : Control) :
    isGroupField n (buildField p t c) = true
      ↔ t = "radio" ∧ truthyOpt c.nameAttr = some n := by
  simp [isGroupField, buildField, beq_iff_eq]

/-- C1 (amended): for a visible radio group named n inside a visible panel,
with m1 its first-encountered member, provided the group key is not aliased
by another visible radio, radio type attributes are written exactly "radio",
any radio sharing the interpolated id of m1 belongs to the group, and the
group key and the field tuple of m1 are fresh in the incoming state, the
panel contributes exactly one FormField for the group, built from m1, whose
choices list length equals the number of group members found in the panel. -/
theorem radio_group_unique_field
    (pi : Nat) (p : Panel) (st : ExtractState) (n : String) (m1 : Control)
    (l1 l2 : List Control)
    (hvisP : p.displayed = some true)
    (hsplit : p.controls = l1 ++ m1 :: l2)
    (hm1 : memberPred n m1 = true)
    (hl1 : ∀ o ∈ l1, memberPred n o = false)
    (hn : n ≠ "")
    (hvism : ∀ o ∈ p.controls, memberPred n o = true → o.displayed = some true)
    (hwf : ∀ o ∈ p.controls, o.displayed = some true →
      pyLower (orDefault o.tag "") = "input" ∨ pyLower (orDefault o.tag "") = "textarea"
        ∨ pyLower (orDefault o.tag "") = "select")
    (htype : ∀ o ∈ p.controls, o.displayed = some true →
      pyLower (orDefault o.typeAttr "text") = "radio" → o.typeAttr = some "radio")
    (halias : ∀ o ∈ p.controls, o.displayed = some true → _control_type o = "radio" →
      radioGroupKey o = n → o.nameAttr = some n)
    (hidshare : ∀ o ∈ p.controls, pyLower (orDefault o.tag "") = "input" →
      o.typeAttr = some "radio" → o.idAttr = some (pyStr m1.idAttr) → o.nameAttr = some n)
    (hgfresh : (pi, n) ∉ st.groupedRadios)
    (hsfresh : fieldKey (buildField p "radio" m1) ∉ st.seenFields) :
    ∃ d, (processPanel st pi p).fields = st.fields ++ d
      ∧ d.filter (isGroupField n) = [buildField p "radio" m1]
      ∧ (buildField p "radio" m1).choices = some (choicesFor p "radio" m1)
      ∧ (choicesFor p "radio" m1).length = (groupMembers p n).length := by
  have hm1mem : m1 ∈ p.controls := by
    rw [hsplit]; exact List.mem_append_right _ (List.mem_cons_self _ _)
  have hm1vis : m1.displayed = some true := hvism m1 hm1mem hm1
  have hm1ct : _control_type m1 = "radio" := member_control_type hm1
  have hm1name : m1.nameAttr = some n := (memberPred_iff.mp hm1).2.2
  have hm1key : radioGroupKey m1 = n := member_groupKey hn hm1
  -- a control that would produce a group field is a group member
  have hproducer : ∀ o ∈ p.controls, o.displayed = some true →
      isGroupField n (buildField p (_control_type o) o) = true → memberPred n o = true := by
    intro o homem hod ht
    rcases (isGroupField_buildField n p (_control_type o) o).mp ht with ⟨hct, hof⟩
    exact radio_with_name_is_member (hwf o homem hod) (htype o homem hod) hct
      (truthyOpt_eq_some.mp hof).1
  -- a control whose field tuple collides with the tuple of m1 is a group member
  have hkeycol : ∀ o ∈ p.controls, o.displayed = some true →
      fieldKey (buildField p (_control_type o) o) = fieldKey (buildField p "radio" m1) →
      memberPred n o = true := by
    intro o homem hod hkey
    have h4 : _control_type o = "radio" :=
      congrArg (fun q : Option String × Option String × Option String × String => q.2.2.2) hkey
    have h2 : truthyOpt o.nameAttr = truthyOpt m1.nameAttr :=
      congrArg (fun q : Option String × Option String × Option String × String => q.2.1) hkey
    rw [hm1name, truthyOpt_some_of_ne hn] at h2
    exact radio_with_name_is_member (hwf o homem hod) (htype o homem hod) h4
      (truthyOpt_eq_some.mp h2).1
  have hl1sub : ∀ o ∈ l1, o ∈ p.controls := by
    intro o ho; rw [hsplit]; exact List.mem_append_left _ ho
  have hl2sub : ∀ o ∈ l2, o ∈ p.controls := by
    intro o ho; rw [hsplit]
    exact List.mem_append_right _ (List.mem_cons_of_mem _ ho)
  -- phase one: before m1 no group activity happens
  have hstep1 : ∀ stA c, c ∈ l1 →
      ((∃ d, stA.fields = st.fields ++ d ∧ d.filter (isGroupField n) = [])
        ∧ (pi, n) ∉ stA.groupedRadios
        ∧ fieldKey (buildField p "radio" m1) ∉ stA.seenFields) →
      ((∃ d, (processControl pi p stA c).fields = st.fields ++ d
          ∧ d.filter (isGroupField n) = [])
        ∧ (pi, n) ∉ (processControl pi p stA c).groupedRadios
        ∧ fieldKey (buildField p "radio" m1) ∉ (processControl pi p stA c).seenFields) := by
    rintro stA c hc ⟨⟨d, hdf, hdfil⟩, hg, hs⟩
    have hcmem := hl1sub c hc
    have hcnot : memberPred n c = false := hl1 c hc
    refine ⟨?_, ?_, ?_⟩
    · rcases processControl_skip_or_emit pi p stA c with ⟨hf, _⟩ | ⟨hd2, _, _, _, hf, _⟩
      · exact ⟨d, by rw [hf, hdf], hdfil⟩
      · refine ⟨d ++ [buildField p (_control_type c) c],
          by rw [hf, hdf, List.append_assoc], ?_⟩
        rw [List.filter_append, hdfil]
        have hgf : isGroupField n (buildField p (_control_type c) c) = false := by
          cases hgfc : isGroupField n (buildField p (_control_type c) c)
          · rfl
          · rw [hproducer c hcmem hd2 hgfc] at hcnot
            exact Bool.noConfusion hcnot
        simp [hgf]
    · rcases processControl_grouped_spec pi p stA c with hge | ⟨hge, hd2, hct2, _⟩
      · rw [hge]; exact hg
      · rw [hge]
        intro hmem
        rcases List.mem_cons.mp hmem with heq | hmem2
        · have hkeyeq : n = radioGroupKey c := congrArg Prod.snd heq
          have hname := halias c hcmem hd2 hct2 hkeyeq.symm
          have := radio_with_name_is_member (hwf c hcmem hd2) (htype c hcmem hd2) hct2 hname
          rw [this] at hcnot
          exact Bool.noConfusion hcnot
        · exact hg hmem2
    · rcases processControl_skip_or_emit pi p stA c with ⟨_, hse⟩ | ⟨hd2, _, _, _, _, hse⟩
      · rw [hse]; exact hs
      · rw [hse]
        intro hmem
        rcases List.mem_cons.mp hmem with heq | hmem2
        · have := hkeycol c hcmem hd2 heq.symm
          rw [this] at hcnot
          exact Bool.noConfusion hcnot
        · exact hs hmem2
  have hP1 := foldl_controls_preserve pi p l1 hstep1 st ⟨⟨[], by simp, rfl⟩, hgfresh, hsfresh⟩
  set stA := l1.foldl (processControl pi p) st with hstA
  obtain ⟨⟨d1, hd1f, hd1fil⟩, hgA, hsA⟩ := hP1
  -- the step on m1 emits the group field
  have hsr : _should_skip_control "radio" = false := by decide
  have hstepm1 : processControl pi p stA m1
      = { stA with groupedRadios := (pi, n) :: stA.groupedRadios,
                   seenFields := fieldKey (buildField p "radio" m1) :: stA.seenFields,
                   fields := stA.fields ++ [buildField p "radio" m1] } := by
    simp [processControl, emitField, hm1vis, hm1ct, hm1key, hgA, hsA, hsr]
  -- phase three: after m1 no further group field appears
  have hstep3 : ∀ s c, c ∈ l2 →
      ((∃ d, s.fields = (processControl pi p stA m1).fields ++ d
          ∧ d.filter (isGroupField n) = [])
        ∧ (pi, n) ∈ s.groupedRadios) →
      ((∃ d, (processControl pi p s c).fields = (processControl pi p stA m1).fields ++ d
          ∧ d.filter (isGroupField n) = [])
        ∧ (pi, n) ∈ (processControl pi p s c).groupedRadios) := by
    rintro s c hc ⟨⟨d, hdf, hdfil⟩, hgmem⟩
    have hcmem := hl2sub c hc
    constructor
    · rcases processControl_skip_or_emit pi p s c with ⟨hf, _⟩ | ⟨hd2, _, hradcl, _, hf, _⟩
      · exact ⟨d, by rw [hf, hdf], hdfil⟩
      · refine ⟨d ++ [buildField p (_control_type c) c],
          by rw [hf, hdf, List.append_assoc], ?_⟩
        rw [List.filter_append, hdfil]
        have hgf : isGroupField n (buildField p (_control_type c) c) = false := by
          cases hgfc : isGroupField n (buildField p (_control_type c) c)
          · rfl
          · have hcm := hproducer c hcmem hd2 hgfc
            have hct2 : _control_type c = "radio" := member_control_type hcm
            have hkey2 : radioGroupKey c = n := member_groupKey hn hcm
            have hni := hradcl hct2
            rw [hkey2] at hni
            exact absurd hgmem hni
        simp [hgf]
    · exact processControl_grouped_mono pi p s c hgmem
  have hP3 := foldl_controls_preserve pi p l2 hstep3 (processControl pi p stA m1)
    ⟨⟨[], by simp, rfl⟩, by rw [hstepm1]; exact List.mem_cons_self _ _⟩
  obtain ⟨⟨d2, hd2f, hd2fil⟩, _⟩ := hP3
  -- decompose the panel fold
  have hfold : processPanel st pi p
      = l2.foldl (processControl pi p) (processControl pi p stA m1) := by
    rw [processPanel_displayed hvisP, hsplit, List.foldl_append, List.foldl_cons, ← hstA]
  -- the group membership facts about the emitted field
  have htgtgroup : isGroupField n (buildField p "radio" m1) = true :=
    (isGroupField_buildField n p "radio" m1).mpr
      ⟨rfl, by rw [hm1name]; exact truthyOpt_some_of_ne hn⟩
  -- m1 matches its own choice lookup
  have hm1match : choiceMatch "radio" (pyStr m1.nameAttr) (pyStr m1.idAttr) m1 = true := by
    rcases memberPred_iff.mp hm1 with ⟨htag, hty, hname⟩
    exact choiceMatch_iff.mpr ⟨htag, hty, Or.inl (by rw [hname]; rfl)⟩
  have hchne : choicesFor p "radio" m1 ≠ [] := by
    intro hnil
    unfold choicesFor at hnil
    have hmem := List.mem_filter.mpr ⟨hm1mem, hm1match⟩
    rw [List.map_eq_nil_iff.mp hnil] at hmem
    exact List.not_mem_nil _ hmem
  have hchoices : (buildField p "radio" m1).choices = some (choicesFor p "radio" m1) := by
    simp [buildField, hchne]
  -- the choice lookup finds exactly the group members
  have hpn : pyStr m1.nameAttr = n := by rw [hm1name]; rfl
  have hlen : (choicesFor p "radio" m1).length = (groupMembers p n).length := by
    unfold choicesFor groupMembers
    rw [List.length_map]
    have hcongr : ∀ o ∈ p.controls,
        choiceMatch "radio" (pyStr m1.nameAttr) (pyStr m1.idAttr) o = memberPred n o := by
      intro o ho
      rw [Bool.eq_iff_iff]
      constructor
      · intro h
        rcases choiceMatch_iff.mp h with ⟨htag, hty, hnm | hid⟩
        · rw [hpn] at hnm
          exact memberPred_iff.mpr ⟨htag, hty, hnm⟩
        · exact memberPred_iff.mpr ⟨htag, hty, hidshare o ho htag hty hid⟩
      · intro h
        rcases memberPred_iff.mp h with ⟨htag, hty, hnm⟩
        exact choiceMatch_iff.mpr ⟨htag, hty, Or.inl (by rw [hpn]; exact hnm)⟩
    rw [List.filter_congr hcongr]
  -- assemble
  refine ⟨d1 ++ ([buildField p "radio" m1] ++ d2), ?_, ?_, hchoices, hlen⟩
  · rw [hfold, hd2f, hstepm1]
    show (stA.fields ++ [buildField p "radio" m1]) ++ d2
        = st.fields ++ (d1 ++ ([buildField p "radio" m1] ++ d2))
    rw [hd1f]
    simp [List.append_assoc]
  · rw [List.filter_append, List.filter_append, hd1fil, hd2fil, List.filter_cons,
      htgtgroup]
    simp

/-! ## Claim theorems -/

/-- C1 (counterexample): in a two-panel DOM whose panels hold radio groups
sharing the name "plan", the group of the second panel has one visible member
cr2, yet the run emits only the field of the first panel group: the FormField
of the second group (carrying its own choices) never appears, so the group
emits zero FormFields instead of exactly one. -/
theorem radio_group_counterexample :
    groupMembers cPanel1 "plan" = [cr2]
    ∧ cr2.displayed = some true
    ∧ extractFields [cPanel0, cPanel1] = [buildField cPanel0 "radio" cr1]
    ∧ buildField cPanel1 "radio" cr2 ∉ extractFields [cPanel0, cPanel1] := by
  decide

/-- Witness for the amended claim C1 at a concrete two-member radio group. -/
theorem radio_group_unique_field_witness :
    ∃ d, (processPanel initState 0 wgPanel).fields = initState.fields ++ d
      ∧ d.filter (isGroupField "grp") = [buildField wgPanel "radio" wg1]
      ∧ (buildField wgPanel "radio" wg1).choices = some (choicesFor wgPanel "radio" wg1)
      ∧ (choicesFor wgPanel "radio" wg1).length = (groupMembers wgPanel "grp").length :=
  radio_group_unique_field 0 wgPanel initState "grp" wg1 [] [wg2]
    (by decide) (by decide) (by decide) (by decide) (by decide) (by decide)
    (by decide) (by decide) (by decide) (by decide) (by decide) (by decide)

/-- C2 (confirmed): the emitted result sequence never holds two FormField
entries with the same (identifier, name, label, kind) tuple, over any DOM,
including one where the same control is encountered more than once. -/
theorem extraction_no_duplicate_tuples (panels : List Panel) :
    ((extractFields panels).map fieldKey).Nodup := by
  have hstep : ∀ (pi : Nat) (p : Panel) (st : ExtractState) (c : Control),
      ((st.fields.map fieldKey).Nodup ∧ ∀ f ∈ st.fields, fieldKey f ∈ st.seenFields) →
      (((processControl pi p st c).fields.map fieldKey).Nodup
        ∧ ∀ f ∈ (processControl pi p st c).fields,
            fieldKey f ∈ (processControl pi p st c).seenFields) := by
    rintro pi p st c ⟨hnodup, hsub⟩
    rcases processControl_skip_or_emit pi p st c with ⟨hf, hs⟩ | ⟨_, _, _, hfr, hf, hs⟩
    · rw [hf, hs]; exact ⟨hnodup, hsub⟩
    · rw [hf, hs]
      constructor
      · rw [List.map_append, List.nodup_append]
        refine ⟨hnodup, by simp, ?_⟩
        intro a ha hb
        simp only [List.map_cons, List.map_nil, List.mem_singleton] at hb
        subst hb
        rcases List.mem_map.mp ha with ⟨f, hfmem, hfkey⟩
        exact hfr (hfkey ▸ hsub f hfmem)
      · intro f hfmem
        rcases List.mem_append.mp hfmem with hold | hnew
        · exact List.mem_cons_of_mem _ (hsub f hold)
        · rw [List.mem_singleton.mp hnew]
          exact List.mem_cons_self _ _
  have hfinal := foldl_panels_preserve hstep panels.enum initState
    ⟨by simp [initState], by simp [initState]⟩
  rw [extractFields_eq]
  exact hfinal.1

/-- C3 (confirmed): if a control satisfies heuristic k of the label resolver
priority list and no heuristic before k, the resolver returns exactly the
value of heuristic k. -/
theorem resolve_label_priority (c : Control) (k : Nat) (v : String)
    (hk1 : 1 ≤ k) (hk7 : k ≤ 7)
    (hsat : heuristicValue c k = some v)
    (hprev : ∀ j, j < k → heuristicValue c j = none) :
    _get_label_for_control c = some v := by
  interval_cases k
  · have h1 : labelStep c.labelFormGroup = some v := hsat
    simp [_get_label_for_control, h1]
  · have h1 : labelStep c.labelFormGroup = none := hprev 1 (by omega)
    have h2 : labelStep c.labelParentTag = some v := hsat
    simp [_get_label_for_control, h1, h2]
  · have h1 : labelStep c.labelFormGroup = none := hprev 1 (by omega)
    have h2 : labelStep c.labelParentTag = none := hprev 2 (by omega)
    have h3 : labelForIdStep c = some v := hsat
    simp [_get_label_for_control, h1, h2, h3]
  · have h1 : labelStep c.labelFormGroup = none := hprev 1 (by omega)
    have h2 : labelStep c.labelParentTag = none := hprev 2 (by omega)
    have h3 : labelForIdStep c = none := hprev 3 (by omega)
    have h4 : labelStep c.labelPreceding = some v := hsat
    simp [_get_label_for_control, h1, h2, h3, h4]
  · have h1 : labelStep c.labelFormGroup = none := hprev 1 (by omega)
    have h2 : labelStep c.labelParentTag = none := hprev 2 (by omega)
    have h3 : labelForIdStep c = none := hprev 3 (by omega)
    have h4 : labelStep c.labelPreceding = none := hprev 4 (by omega)
    have h5 : labelStep c.labelInside = some v := hsat
    simp [_get_label_for_control, h1, h2, h3, h4, h5]
  · have h1 : labelStep c.labelFormGroup = none := hprev 1 (by omega)
    have h2 : labelStep c.labelParentTag = none := hprev 2 (by omega)
    have h3 : labelForIdStep c = none := hprev 3 (by omega)
    have h4 : labelStep c.labelPreceding = none := hprev 4 (by omega)
    have h5 : labelStep c.labelInside = none := hprev 5 (by omega)
    have h6 : (if (pyStrip (orDefault c.placeholderAttr "") != "") = true
        then some (pyStrip (orDefault c.placeholderAttr "")) else none) = some v := hsat
    by_cases hc : (pyStrip (orDefault c.placeholderAttr "") != "") = true
    · rw [if_pos hc] at h6
      simp only [_get_label_for_control, h1, h2, h3, h4, h5]
      rw [if_pos hc]
      exact h6
    · rw [if_neg hc] at h6
      exact Option.noConfusion h6
  · have h1 : labelStep c.labelFormGroup = none := hprev 1 (by omega)
    have h2 : labelStep c.labelParentTag = none := hprev 2 (by omega)
    have h3 : labelForIdStep c = none := hprev 3 (by omega)
    have h4 : labelStep c.labelPreceding = none := hprev 4 (by omega)
    have h5 : labelStep c.labelInside = none := hprev 5 (by omega)
    have h6 : (if (pyStrip (orDefault c.placeholderAttr "") != "") = true
        then some (pyStrip (orDefault c.placeholderAttr "")) else none) = none :=
      hprev 6 (by omega)
    have h7 : (if (pyStrip (orDefault c.nameAttr "") != ""
            && nameHasLetter (pyStrip (orDefault c.nameAttr ""))) = true
        then some (pyStrip (orDefault c.nameAttr "")) else none) = some v := hsat
    have hc6 : ¬((pyStrip (orDefault c.placeholderAttr "") != "") = true) := by
      intro hc
      rw [if_pos hc] at h6
      exact Option.noConfusion h6
    by_cases hc7 : (pyStrip (orDefault c.nameAttr "") != ""
        && nameHasLetter (pyStrip (orDefault c.nameAttr ""))) = true
    · rw [if_pos hc7] at h7
      simp only [_get_label_for_control, h1, h2, h3, h4, h5]
      rw [if_neg hc6, if_pos hc7]
      exact h7
    · rw [if_neg hc7] at h7
      exact Option.noConfusion h7

/-- Witness for claim C3 at a control satisfying heuristic 2 only. -/
theorem resolve_label_priority_witness :
    _get_label_for_control w3ctrl = some "Acepto los terminos" :=
  resolve_label_priority w3ctrl 2 "Acepto los terminos"
    (by decide) (by decide) (by decide) (by decide)

/-- C4 (confirmed): when no heuristic of the resolver qualifies, the label is
none, never an empty string; in particular the control with the numeric-only
name "10917038_0" and no caption and no placeholder gets no label, while the
same control with name "rut_field" gets the label "rut_field". -/
theorem resolve_label_none_cases :
    (∀ c : Control, (∀ j, j ≤ 7 → heuristicValue c j = none) →
      _get_label_for_control c = none)
    ∧ _get_label_for_control numericNameCtrl = none
    ∧ _get_label_for_control rutNameCtrl = some "rut_field" := by
  refine ⟨?_, by decide, by decide⟩
  intro c h
  have h1 : labelStep c.labelFormGroup = none := h 1 (by omega)
  have h2 : labelStep c.labelParentTag = none := h 2 (by omega)
  have h3 : labelForIdStep c = none := h 3 (by omega)
  have h4 : labelStep c.labelPreceding = none := h 4 (by omega)
  have h5 : labelStep c.labelInside = none := h 5 (by omega)
  have h6 : (if (pyStrip (orDefault c.placeholderAttr "") != "") = true
      then some (pyStrip (orDefault c.placeholderAttr "")) else none) = none :=
    h 6 (by omega)
  have h7 : (if (pyStrip (orDefault c.nameAttr "") != ""
          && nameHasLetter (pyStrip (orDefault c.nameAttr ""))) = true
      then some (pyStrip (orDefault c.nameAttr "")) else none) = none :=
    h 7 (by omega)
  have hc6 : ¬((pyStrip (orDefault c.placeholderAttr "") != "") = true) := by
    intro hc
    rw [if_pos hc] at h6
    exact Option.noConfusion h6
  have hc7 : ¬((pyStrip (orDefault c.nameAttr "") != ""
      && nameHasLetter (pyStrip (orDefault c.nameAttr ""))) = true) := by
    intro hc
    rw [if_pos hc] at h7
    exact Option.noConfusion h7
  simp only [_get_label_for_control, h1, h2, h3, h4, h5]
  rw [if_neg hc6, if_neg hc7]

/-- Witness for claim C4 at a control with no label source at all. -/
theorem resolve_label_none_cases_witness :
    _get_label_for_control blankCtrl = none :=
  resolve_label_none_cases.1 blankCtrl (by decide)

/-- C5 (counterexample): the control whose class attribute is the single
class "field-required" carries none of the three claimed signals, since its
class list has no "required" token, yet the derived required flag is true:
the code tests the substring, not the token. -/
theorem required_token_counterexample :
    _is_required classCtrl = true
    ∧ truthy classCtrl.requiredAttr = false
    ∧ truthy classCtrl.ariaRequired = false
    ∧ requiredTokenPresent classCtrl = false := by
  decide

/-- C5 (amended): the derived required flag is true iff the required
attribute is truthy, the accessibility-required attribute is truthy, or the
lowercased class attribute holds "required" as a substring; a single signal
is sufficient and with none of the three present the flag is false. -/
theorem required_iff_three_signals (c : Control) :
    _is_required c = true
      ↔ (truthy c.requiredAttr = true ∨ truthy c.ariaRequired = true
          ∨ strContains (pyLower (orDefault c.classAttr "")) "required" = true) := by
  simp [_is_required, Bool.or_eq_true, or_assoc]

/-- C6 (confirmed): a control classified hidden, button, submit or reset
leaves the extraction state untouched, and no emitted FormField ever carries
one of those kinds, whatever the DOM. -/
theorem skipped_kinds_never_emitted :
    (∀ (pi : Nat) (p : Panel) (st : ExtractState) (c : Control),
      _should_skip_control (_control_type c) = true → processControl pi p st c = st)
    ∧ ∀ (panels : List Panel) (f : FormField), f ∈ extractFields panels →
        _should_skip_control f.tipo = false := by
  constructor
  · intro pi p st c hskip
    by_cases hd : c.displayed = some true
    · simp [processControl, hd, hskip]
    · simp [processControl, hd]
  · have hstep : ∀ (pi : Nat) (p : Panel) (st : ExtractState) (c : Control),
        (∀ f ∈ st.fields, _should_skip_control f.tipo = false) →
        (∀ f ∈ (processControl pi p st c).fields, _should_skip_control f.tipo = false) := by
      intro pi p st c hinv
      rcases processControl_skip_or_emit pi p st c with ⟨hf, _⟩ | ⟨_, hns, _, _, hf, _⟩
      · rw [hf]; exact hinv
      · rw [hf]
        intro f hfmem
        rcases List.mem_append.mp hfmem with hold | hnew
        · exact hinv f hold
        · rw [List.mem_singleton.mp hnew]
          exact hns
    intro panels f hf
    have hfinal := foldl_panels_preserve hstep panels.enum initState (by simp [initState])
    rw [extractFields_eq] at hf
    exact hfinal f hf

/-- Witness for claim C6: a hidden control leaves the state unchanged, and a
field the run does emit has a non-skipped kind. -/
theorem skipped_kinds_never_emitted_witness :
    processControl 0 wC6Panel initState hiddenCtrl = initState
    ∧ _should_skip_control (buildField wC6Panel "text" wTextCtrl).tipo = false :=
  ⟨skipped_kinds_never_emitted.1 0 wC6Panel initState hiddenCtrl (by decide),
   skipped_kinds_never_emitted.2 [wC6Panel] (buildField wC6Panel "text" wTextCtrl)
     (by decide)⟩

/-- C7 (confirmed): the extraction raises exactly when the panel wait times
out; with located panels it always returns the extracted fields, panel and
toggle failures being swallowed inside the fold. -/
theorem no_panels_sole_fatal_error :
    extract_form_to_json none = Except.error panelsMissingError
    ∧ (∀ ps : List Panel, extract_form_to_json (some ps) = Except.ok (extractFields ps))
    ∧ ∀ po : Option (List Panel),
        (∃ msg, extract_form_to_json po = Except.error msg) ↔ po = none := by
  refine ⟨rfl, fun ps => rfl, ?_⟩
  intro po
  cases po with
  | none => exact ⟨fun _ => rfl, fun _ => ⟨panelsMissingError, rfl⟩⟩
  | some ps =>
    constructor
    · rintro ⟨msg, h⟩
      simp [extract_form_to_json] at h
    · intro h
      exact Option.noConfusion h

/-- C8 (confirmed): a toggle whose identifier has the add-new prefix or
whose caption holds "Agregar" is returned false with no activation call. -/
theorem ensure_expanded_skips_agregar (t : Toggle)
    (h : pyStartsWith (pyLower (orDefault t.idAttr "")) "btnagregar" = true
       ∨ strContains (orDefault t.textContent "") "Agregar" = true) :
    _ensure_expanded t = { visible := false, activated := false } := by
  have hcond : (pyStartsWith (pyLower (orDefault t.idAttr "")) "btnagregar"
      || strContains (pyLower (pyStrip (orDefault t.textContent ""))) "agregar") = true := by
    rcases h with h | h
    · simp [h]
    · have hws : ∀ ch ∈ "Agregar".data, ch.isWhitespace = false := by decide
      have h1 : hasSub (stripChars (orDefault t.textContent "").data) "Agregar".data
          = true := hasSub_stripChars hws h
      have h2 := hasSub_map Char.toLower h1
      have h3 : "Agregar".data.map Char.toLower = "agregar".data := by decide
      rw [h3] at h2
      have h4 : strContains (pyLower (pyStrip (orDefault t.textContent ""))) "agregar"
          = true := h2
      simp [h4]
  simp [_ensure_expanded, hcond]

/-- Witness for claim C8 at a toggle captioned "Agregar Nuevo +". -/
theorem ensure_expanded_skips_agregar_witness :
    _ensure_expanded wToggle = { visible := false, activated := false } :=
  ensure_expanded_skips_agregar wToggle (Or.inr (by decide))

/-- C9 (confirmed): when neither the new-application affordance nor the
progress bar is observed before the timeout, the routing step of the
authentication sequencer completes with no error and still returns the
session handle. -/
theorem routing_timeout_soft_fails {α : Type} (driver : α) (page : PostLoginPage)
    (hn : page.nuevaPresent = false) (hb : page.barraPresent = false) :
    route_to_form_entry driver page = Except.ok driver := by
  simp [route_to_form_entry, hn, hb]

/-- Witness for claim C9 at a page showing neither condition. -/
theorem routing_timeout_soft_fails_witness :
    route_to_form_entry (0 : Nat) quietPage = Except.ok 0 :=
  routing_timeout_soft_fails 0 quietPage rfl rfl

/-- C10 (confirmed): visible radios with neither name nor id all share the
fallback group key (panel index, empty string); after the first of them in a
panel, every later such radio is dropped silently: deleting it from the
control list leaves the extraction state unchanged, even though it may
belong to an unrelated group. -/
theorem keyless_radios_collapse_and_drop
    (pi : Nat) (p : Panel) (st : ExtractState) (c1 c2 : Control)
    (l1 l2 l3 : List Control)
    (h1 : keylessVisibleRadio c1) (h2 : keylessVisibleRadio c2)
    (hl : p.controls = l1 ++ c1 :: (l2 ++ c2 :: l3)) :
    radioGroupKey c1 = "" ∧ radioGroupKey c2 = ""
    ∧ p.controls.foldl (processControl pi p) st
        = (l1 ++ c1 :: (l2 ++ l3)).foldl (processControl pi p) st := by
  obtain ⟨hn1, hi1, hd1, hr1⟩ := h1
  obtain ⟨hn2, hi2, hd2, hr2⟩ := h2
  have hk1 : radioGroupKey c1 = "" := by simp [radioGroupKey, hn1, hi1, orDefault]
  have hk2 : radioGroupKey c2 = "" := by simp [radioGroupKey, hn2, hi2, orDefault]
  refine ⟨hk1, hk2, ?_⟩
  have hkey : (pi, "") ∈
      (processControl pi p (l1.foldl (processControl pi p) st) c1).groupedRadios := by
    have hadd := processControl_radio_adds_key pi p
      (l1.foldl (processControl pi p) st) c1 hd1 hr1
    rwa [hk1] at hadd
  have hkey2 : (pi, "") ∈
      (l2.foldl (processControl pi p)
        (processControl pi p (l1.foldl (processControl pi p) st) c1)).groupedRadios :=
    foldl_controls_grouped_mono pi p l2 hkey
  have hdrop := processControl_radio_in_group pi p
    (l2.foldl (processControl pi p)
      (processControl pi p (l1.foldl (processControl pi p) st) c1)) c2 hd2 hr2
    (by rwa [hk2])
  have hLHS : (l1 ++ c1 :: (l2 ++ c2 :: l3)).foldl (processControl pi p) st
      = l3.foldl (processControl pi p)
          (processControl pi p
            (l2.foldl (processControl pi p)
              (processControl pi p (l1.foldl (processControl pi p) st) c1)) c2) := by
    simp [List.foldl_append]
  have hRHS : (l1 ++ c1 :: (l2 ++ l3)).foldl (processControl pi p) st
      = l3.foldl (processControl pi p)
          (l2.foldl (processControl pi p)
            (processControl pi p (l1.foldl (processControl pi p) st) c1)) := by
    simp [List.foldl_append]
  rw [hl, hLHS, hRHS, hdrop]

/-- Witness for claim C10 at a panel with two keyless visible radios. -/
theorem keyless_radios_collapse_and_drop_witness :
    radioGroupKey k1 = "" ∧ radioGroupKey k2 = ""
    ∧ kPanel.controls.foldl (processControl 0 kPanel) initState
        = ([] ++ k1 :: ([] ++ [])).foldl (processControl 0 kPanel) initState :=
  keyless_radios_collapse_and_drop 0 kPanel initState k1 k2 [] [] []
    (by refine ⟨rfl, rfl, rfl, ?_⟩; decide)
    (by refine ⟨rfl, rfl, rfl, ?_⟩; decide)
    rfl
